import Mathlib

/-!
Shallow embedding of the VCD extraction core of `apps/waveform/views.py`:
the lazy parser loader `ensure_parsers_loaded` (lines 25-61), the signal
extractor `get_signal_data` (lines 64-225) and the orchestrator
`parse_vcd_file` (lines 228-311).

Python machine-level conventions used throughout the embedding:
* Python floats are modelled as exact rationals (`Rat`); every comparison
  the source performs on them (`== 1e-12`, multiplication by powers of ten)
  is exact at the points the source tests.
* duck-typed Python values are modelled by the closed inductive `PyVal`;
* an exception raised by a duck-typed collaborator is modelled by
  `Except PyExc`; Django's `ValidationError` raised by the orchestrator is
  a constructor of `CoreError`.
-/

namespace Wave

/-- A Python runtime value as it can reach the extraction core through the
duck-typed parser objects. -/
inductive PyVal where
  | none
  | bool (b : Bool)
  | int (n : Int)
  | float (q : Rat)
  | str (s : String)
  | list (xs : List PyVal)
  | tuple (xs : List PyVal)
  | dict (entries : List (String × PyVal))

/-- Python truthiness (`bool(x)`) for the modelled values. -/
def pyTruthy : PyVal → Bool
  | .none => false
  | .bool b => b
  | .int n => n != 0
  | .float q => q != 0
  | .str s => !s.data.isEmpty
  | .list xs => !xs.isEmpty
  | .tuple xs => !xs.isEmpty
  | .dict es => !es.isEmpty

/-- `isinstance(value, (str, int, float, bool))` (views.py line 185). -/
def isScalar : PyVal → Bool
  | .str _ => true
  | .int _ => true
  | .float _ => true
  | .bool _ => true
  | _ => false

/-- `str(x)` for the modelled values.  Scalars render as in Python; the
rendered text of containers and floats is a boundary approximation (no
claim observes it — the source only uses `str` to coerce non-scalar sample
values and non-string timescale units to text). -/
def pyStr : PyVal → String
  | .none => "None"
  | .bool b => if b then "True" else "False"
  | .int n => toString n
  | .float q => toString q
  | .str s => s
  | .list xs => "[" ++ String.intercalate ", " (xs.attach.map (fun x => pyStr x.1)) ++ "]"
  | .tuple xs => "(" ++ String.intercalate ", " (xs.attach.map (fun x => pyStr x.1)) ++ ")"
  | .dict es =>
      "\x7b" ++ String.intercalate ", "
        (es.attach.map (fun e => e.1.1 ++ ": " ++ pyStr e.1.2)) ++ "\x7d"
decreasing_by
  · have := List.sizeOf_lt_of_mem x.2
    simp only [PyVal.list.sizeOf_spec]
    omega
  · have := List.sizeOf_lt_of_mem x.2
    simp only [PyVal.tuple.sizeOf_spec]
    omega
  · have := List.sizeOf_lt_of_mem e.2
    have h2 : sizeOf e.1 = 1 + sizeOf e.1.1 + sizeOf e.1.2 := by
      rcases e.1 with ⟨a, b⟩
      simp
    simp only [PyVal.dict.sizeOf_spec]
    omega

/-- ASCII decimal digit test. -/
def isDigitCh (c : Char) : Bool := 48 ≤ c.toNat && c.toNat ≤ 57

/-- Consume leading digits: returns (number of digits, their value, rest). -/
def readDigits : List Char → Nat → Nat → (Nat × Nat × List Char)
  | [], n, acc => (n, acc, [])
  | c :: rest, n, acc =>
    if isDigitCh c then readDigits rest (n + 1) (acc * 10 + (c.toNat - 48))
    else (n, acc, c :: rest)

/-- Python whitespace (the ASCII part: space, \t, \n, \v, \f, \r). -/
def isSpaceCh (c : Char) : Bool := c.toNat == 32 || (9 ≤ c.toNat && c.toNat ≤ 13)

/-- `s.strip()` on a character list (ASCII whitespace). -/
def stripCL (l : List Char) : List Char :=
  ((l.dropWhile isSpaceCh).reverse.dropWhile isSpaceCh).reverse

/-- `float(s)` on a numeric string, as an unreduced (numerator,
denominator) pair of integers: optional sign, decimal mantissa with an
optional fractional part, optional exponent.  Returns `Option.none` where
CPython raises `ValueError` (empty, no digits, trailing garbage).  The
special forms `inf`/`nan` and digit-group underscores are not modelled; no
input of the claims uses them. -/
def parseFloatParts (l : List Char) : Option (Int × Nat) :=
  let sl : Int × List Char :=
    match l with
    | '-' :: t => (-1, t)
    | '+' :: t => (1, t)
    | _ => (1, l)
  let (nInt, intVal, l2) := readDigits sl.2 0 0
  let fr : Nat × Nat × List Char :=
    match l2 with
    | '.' :: t => readDigits t 0 0
    | _ => (0, 0, l2)
  let (nFrac, fracVal, l3) := fr
  if nInt + nFrac == 0 then Option.none
  else
    let num : Int := sl.1 * (intVal * 10 ^ nFrac + fracVal)
    let den : Nat := 10 ^ nFrac
    match l3 with
    | [] => some (num, den)
    | e :: t =>
      if e == 'e' || e == 'E' then
        let st : Bool × List Char :=
          match t with
          | '-' :: tt => (true, tt)
          | '+' :: tt => (false, tt)
          | _ => (false, t)
        let (nExp, expVal, t2) := readDigits st.2 0 0
        if nExp == 0 || !t2.isEmpty then Option.none
        else if st.1 then some (num, den * 10 ^ expVal)
        else some (num * 10 ^ expVal, den)
      else Option.none

/-- `float(s)` for a string: Python strips surrounding whitespace first;
the exact rational value of the parsed decimal. -/
def parseFloatStr (s : String) : Option Rat :=
  (parseFloatParts (stripCL s.data)).map (fun p => (p.1 : Rat) / (p.2 : Rat))

/-- `float(x)`: succeeds on bool/int/float and numeric strings, raises
`TypeError`/`ValueError` (here: `Option.none`) on everything else. -/
def pyFloat : PyVal → Option Rat
  | .bool b => some (if b then 1 else 0)
  | .int n => some (n : Rat)
  | .float q => some q
  | .str s => parseFloatStr s
  | _ => Option.none

/-- Kernel-evaluable string equality through the character lists. -/
def strEq (a b : String) : Bool := a.data == b.data

/-- Lexicographic comparison of character lists by code point, the order
Python's `str` comparison uses. -/
def charListLe : List Char → List Char → Bool
  | [], _ => true
  | _ :: _, [] => false
  | a :: as, b :: bs =>
    if a.toNat < b.toNat then true
    else if b.toNat < a.toNat then false
    else charListLe as bs

/-- Python string `<=` (lexicographic by code point). -/
def pyStrLe (a b : String) : Bool := charListLe a.data b.data

/-- ASCII lower-casing of one character (`str.lower` restricted to ASCII;
Python's full Unicode case map never differs on the unit strings the
source compares). -/
def charLower (c : Char) : Char :=
  if 65 ≤ c.toNat && c.toNat ≤ 90 then Char.ofNat (c.toNat + 32) else c

/-- `s.lower()` (ASCII approximation). -/
def lowerStr (s : String) : String := ⟨s.data.map charLower⟩

/-- `a.startswith(b)` on character lists. -/
def isPrefixOfCL : List Char → List Char → Bool
  | [], _ => true
  | _ :: _, [] => false
  | a :: as, b :: bs => a == b && isPrefixOfCL as bs

/-- `b in a` (substring containment) on character lists. -/
def containsSubCL (pat : List Char) : List Char → Bool
  | [] => isPrefixOfCL pat []
  | c :: rest => isPrefixOfCL pat (c :: rest) || containsSubCL pat rest

/-- `a.endswith(b)` on character lists. -/
def endsWithCL (suffixChars l : List Char) : Bool :=
  isPrefixOfCL suffixChars.reverse l.reverse

/-- `d.get(k)` / `k in d` on the modelled dict entries. -/
def dictGet (es : List (String × PyVal)) (k : String) : Option PyVal :=
  match es.find? (fun e => strEq e.1 k) with
  | some e => some e.2
  | Option.none => Option.none

/-- An exception escaping a duck-typed parser object: `KeyError` is told
apart because views.py line 204 has a dedicated handler for it (both
handlers `continue`, so the distinction is not observable). -/
inductive PyExc where
  | keyError (msg : String)
  | exc (msg : String)

/-- The duck-typed per-signal object `vcd[signal_name]`.  `falsy` models
Python truthiness of the object (line 160 `if not signal`); `tv` is
`Option.none` when the object has no `tv` attribute (or a non-list falsy
one, line 164), otherwise the list of raw time-value records. -/
structure SigObj where
  falsy : Bool
  tv : Option (List PyVal)

/-- The duck-typed `vcdvcd.VCDVCD` object: each accessor may raise. -/
structure VCDObj where
  getSignals : Except PyExc (List PyVal)
  getTimescale : Except PyExc PyVal
  sigLookup : String → Except PyExc SigObj

/-- One output sample `{"time": scaled_time, "value": value}` (line 188). -/
structure Sample where
  time : Rat
  value : PyVal

/-- One output entry `{"name": signal_name, "data": data}` (line 203). -/
structure SignalOut where
  name : String
  data : List Sample

/-- The output timescale descriptor (lines 218-221). -/
structure TsOut where
  value : Rat
  unit : String

/-- The shape returned by `get_signal_data` / `parse_vcd_file`. -/
structure SignalsResult where
  signals : List SignalOut
  timescale : TsOut

/-- `{"signals": [], "timescale": {"value": 1, "unit": "ns"}}`. -/
def defaultResult : SignalsResult := ⟨[], ⟨1, "ns"⟩⟩

/-- The default timescale dict entries `{"value": 1, "unit": "ns"}`. -/
def defaultTsEntries : List (String × PyVal) := [("value", .int 1), ("unit", .str "ns")]

/-- Lines 94-130: turn the (already dict-shaped) timescale metadata into
the `(timescale_value, timescale_unit)` pair.  The exact float comparisons
of lines 99-108 become exact rational comparisons. -/
def resolveTimescale (entries : List (String × PyVal)) : Rat × String :=
  match dictGet entries "timescale" with
  | some x =>
    -- scientific-notation seconds branch (lines 95-114)
    match pyFloat x with
    | Option.none => (1, "ns")   -- float() raised; caught at line 127
    | some v =>
      if v = 1 / 1000000000000 then (1, "ps")
      else if v = 1 / 100000000000 then (10, "ps")
      else if v = 1 / 10000000000 then (100, "ps")
      else if v = 1 / 1000000000 then (1, "ns")
      else (v * 1000000000, "ns")
  | Option.none =>
    -- standard {value, magnitude?, unit} branch (lines 115-126)
    match pyFloat ((dictGet entries "value").getD (.int 1)) with
    | Option.none => (1, "ns")   -- float() raised; caught at line 127
    | some v0 =>
      let v : Rat :=
        match dictGet entries "magnitude" with
        | some m =>
          match pyFloat m with
          | some mv => v0 * mv
          | Option.none => 1     -- line 125: the value is reset to 1
        | Option.none => v0
      (v, lowerStr (pyStr ((dictGet entries "unit").getD (.str "ns"))))

/-- The `unit_map` literal of lines 135-143 (note the `"µs"` alias). -/
def unit_map : List (String × Rat) :=
  [("s", 1000000000), ("ms", 1000000), ("us", 1000), ("µs", 1000),
   ("ns", 1), ("ps", 1 / 1000), ("fs", 1 / 1000000)]

/-- `unit_map.get(timescale_unit, 1)`. -/
def unitMapGet (u : String) : Rat :=
  match unit_map.find? (fun e => strEq e.1 u) with
  | some e => e.2
  | Option.none => 1

/-- Line 145: `scale_factor = unit_map.get(timescale_unit, 1) * timescale_value`. -/
def scale_factor (value : Rat) (unit : String) : Rat := unitMapGet unit * value

/-- The scale factor `get_signal_data` derives from the raw value of
`vcd.get_timescale()` (lines 84-145): falsy → default dict, non-dict →
default dict, then resolve and look up the unit. -/
def tsScale (tsRaw : PyVal) : Rat :=
  let ts0 := if pyTruthy tsRaw then tsRaw else PyVal.dict defaultTsEntries
  let entries := match ts0 with
    | .dict es => es
    | _ => defaultTsEntries
  let p := resolveTimescale entries
  scale_factor p.1 p.2

/-- Lines 171-193, one iteration: turn one raw `time_value_pair` into a
sample, or skip it (wrong shape / arity, line 173; `float(time)` raising,
line 189).  Non-scalar values are coerced with `str` (lines 185-186). -/
def processRecord (scale : Rat) (r : PyVal) : Option Sample :=
  match r with
  | .list [t, v] =>
    match pyFloat t with
    | some tq => some ⟨tq * scale, if isScalar v then v else .str (pyStr v)⟩
    | Option.none => Option.none
  | .tuple [t, v] =>
    match pyFloat t with
    | some tq => some ⟨tq * scale, if isScalar v then v else .str (pyStr v)⟩
    | Option.none => Option.none
  | _ => Option.none

/-- The `data` list built from a signal's `tv` records (lines 170-193). -/
def extractData (scale : Rat) (tv : List PyVal) : List Sample :=
  tv.filterMap (processRecord scale)

/-- The loop of lines 153-209 over `signal_names`.  Non-string or falsy
names are skipped (line 155); a lookup raising `KeyError` or any other
exception skips the signal (lines 204-209); a falsy signal object is
skipped (line 160); a signal without time-value data still contributes an
entry with empty data (lines 164-167).  The `first_time`/`last_time`
bookkeeping of lines 195-201 feeds only a debug log and is omitted. -/
def processSignals (vcd : VCDObj) (scale : Rat) : List PyVal → List SignalOut
  | [] => []
  | n :: rest =>
    let tail := processSignals vcd scale rest
    match n with
    | .str s =>
      if s.data.isEmpty then tail
      else
        match vcd.sigLookup s with
        | .error _ => tail
        | .ok sig =>
          if sig.falsy then tail
          else
            match sig.tv with
            | Option.none => ⟨s, []⟩ :: tail
            | some [] => ⟨s, []⟩ :: tail
            | some tv => ⟨s, extractData scale tv⟩ :: tail
    | _ => tail

/-- `sorted(signals_data, key=lambda x: x["name"])` comparator. -/
def signalLe (a b : SignalOut) : Bool := pyStrLe a.name b.name

/-- Lines 66-222 of `get_signal_data`, with the exceptions that the outer
`except` of line 223 would catch surfaced as `Except.error`.  The guard
`if not ensure_parsers_loaded()` of line 68 tests the truthiness of the
returned 3-tuple, which is always truthy, so that branch is dead and not
modelled. -/
def getSignalDataCore (vcdOpt : Option VCDObj) : Except PyExc SignalsResult :=
  match vcdOpt with
  | Option.none => .ok defaultResult          -- lines 72-74
  | some vcd =>
    match vcd.getSignals with
    | .error e => .error e
    | .ok names =>
      if names.isEmpty then .ok defaultResult -- lines 77-79
      else
        match vcd.getTimescale with
        | .error e => .error e
        | .ok tsRaw =>
          let scale := tsScale tsRaw
          .ok { signals := (processSignals vcd scale names).mergeSort signalLe,
                timescale := ⟨1, "ns"⟩ }      -- lines 216-222

/-- `get_signal_data`: the outer handler of lines 223-225 maps any escaped
exception to the default result. -/
def get_signal_data (vcdOpt : Option VCDObj) : SignalsResult :=
  match getSignalDataCore vcdOpt with
  | .ok r => r
  | .error _ => defaultResult

/-! ### The lazy parser loader (lines 19-61) -/

/-- The module-level globals `PARSERS_AVAILABLE`, `vcdvcd`, `VcdParser`
(lines 20-22); the two module slots are modelled by whether they hold a
loaded module (`True`) or still `None` (`False`). -/
structure LoaderState where
  parsersAvailable : Bool
  vcdvcdLoaded : Bool
  vcdParserLoaded : Bool

/-- The initial global state (lines 20-22). -/
def initialLoaderState : LoaderState := ⟨false, false, false⟩

/-- The process environment one call of `ensure_parsers_loaded` observes:
the `WAVEFORM_ENABLE_VCD_PARSING` setting (line 43) and whether the two
`import`s of lines 49-50 succeed. -/
structure LoadEnv where
  settingEnabled : Bool
  importsOk : Bool

/-- `ensure_parsers_loaded` (lines 25-61): returns the new global state and
the returned triple `(PARSERS_AVAILABLE, vcdvcd, VcdParser)` (modules as
"is not None" booleans).  Cached results are returned only when the flag
is already `True` (line 37). -/
def ensure_parsers_loaded (st : LoaderState) (env : LoadEnv) :
    LoaderState × (Bool × Bool × Bool) :=
  if st.parsersAvailable then
    (st, (true, st.vcdvcdLoaded, st.vcdParserLoaded))
  else if !env.settingEnabled then
    ({ st with parsersAvailable := false }, (false, false, false))
  else if env.importsOk then
    (⟨true, true, true⟩, (true, true, true))
  else
    ({ st with parsersAvailable := false },
     (false, st.vcdvcdLoaded, st.vcdParserLoaded))

/-! ### The orchestrator `parse_vcd_file` (lines 228-311) -/

/-- The error raised out of `parse_vcd_file`.  The source only ever raises
Django's `ValidationError`; the `configurationError` constructor exists to
state the specification's §7 taxonomy and is never constructed by the
embedded code. -/
inductive CoreError where
  | validationError (msg : String)
  | configurationError (msg : String)

/-- What the file system reports about the input path during one call:
`pathExists` is `os.path.exists`, `size` is `os.path.getsize`, and
`firstLine` is the raw first line `readline()` would produce
(`Option.none`: opening/reading raises). -/
structure FileInfo where
  path : String
  pathExists : Bool
  size : Nat
  firstLine : Option String

/-- Outcome of `vcdvcd_module.VCDVCD(file_path)` (lines 256-259, any
raise —, including the `ImportError` of line 257 — lands in the handler of
line 265). -/
inductive PrimaryOutcome where
  | ok (vcd : VCDObj)
  | raises (msg : String)

/-- Outcome of the pyDigitalWaveTools attempt (lines 272-277): success, a
`UnicodeDecodeError` (line 284), or any other exception (line 289). -/
inductive FallbackOutcome where
  | ok
  | unicodeError (msg : String)
  | raises (msg : String)

/-- Lines 293-306: the best-effort header check.  Returns the message of
the `ValidationError` the block raises, if it raises one.  Note that in
the source this raise happens inside the `try` of line 293 whose
`except Exception as e3` (line 307) catches it, so the message never
escapes `parse_vcd_file`. -/
def missingHeaderCheck (f : FileInfo) : Option String :=
  match f.firstLine with
  | Option.none => Option.none    -- open/readline raised; caught at line 307
  | some line =>
    let l := stripCL line.data
    if !isPrefixOfCL ['$'] l
        && !containsSubCL "$date".data l
        && !containsSubCL "$version".data l then
      some "The file doesn't appear to be a valid VCD file. Missing proper header."
    else Option.none

/-- The observable outcome of one `parse_vcd_file` call, instrumented with
whether each decoder strategy was reached. -/
structure ParseOutput where
  result : Except CoreError SignalsResult
  primaryInvoked : Bool
  fallbackInvoked : Bool

/-- `parse_vcd_file(file_path)` (lines 228-311).  `parsersAvailable` is the
first component of the `ensure_parsers_loaded()` triple (line 230); the
two decoder outcomes are inputs of the model.  The missing-header
diagnostic is computed and discarded, exactly as the swallowed raise of
lines 304-307 does. -/
def parse_vcd_file (parsersAvailable : Bool) (f : FileInfo)
    (primary : PrimaryOutcome) (fallback : FallbackOutcome) : ParseOutput :=
  if !parsersAvailable then
    ⟨.error (.validationError "VCD parsing libraries not available"), false, false⟩
  else if f.path.data.isEmpty || !f.pathExists then
    ⟨.error (.validationError ("File not found: " ++ f.path)), false, false⟩
  else if f.size == 0 then
    ⟨.error (.validationError "The uploaded file is empty"), false, false⟩
  else if !endsWithCL ".vcd".data (lowerStr f.path).data then
    ⟨.error (.validationError "Invalid file format. Only VCD files are allowed."), false, false⟩
  else
    match primary with
    | .ok vcd => ⟨.ok (get_signal_data (some vcd)), true, false⟩
    | .raises _ =>
      match fallback with
      | .ok => ⟨.ok defaultResult, true, true⟩    -- lines 279-283
      | .unicodeError _ =>
        ⟨.error (.validationError "The file contains invalid characters or is not a text file."),
         true, true⟩
      | .raises e2 =>
        -- the missing-header ValidationError of line 304 is raised inside
        -- the try of line 293 and caught by line 307, so it is discarded
        let _diag := missingHeaderCheck f
        ⟨.error (.validationError ("Failed to parse file: " ++ e2)), true, true⟩

/-! ### Helper lemmas -/

theorem charListLe_total (a b : List Char) : (charListLe a b || charListLe b a) = true := by
  induction a generalizing b with
  | nil => cases b <;> rfl
  | cons x xs ih =>
    cases b with
    | nil => rfl
    | cons y ys =>
      unfold charListLe
      rcases Nat.lt_trichotomy x.toNat y.toNat with h | h | h
      · simp [h]
      · have h1 : ¬ x.toNat < y.toNat := by omega
        have h2 : ¬ y.toNat < x.toNat := by omega
        simp [h1, h2, ih ys]
      · have h1 : ¬ x.toNat < y.toNat := by omega
        simp [h, h1]

theorem charListLe_trans (a b c : List Char) (hab : charListLe a b = true)
    (hbc : charListLe b c = true) : charListLe a c = true := by
  induction a generalizing b c with
  | nil => rfl
  | cons x xs ih =>
    cases b with
    | nil => simp [charListLe] at hab
    | cons y ys =>
      cases c with
      | nil => simp [charListLe] at hbc
      | cons z zs =>
        unfold charListLe at hab hbc ⊢
        rcases Nat.lt_trichotomy x.toNat y.toNat with hxy | hxy | hxy
        · rcases Nat.lt_trichotomy y.toNat z.toNat with hyz | hyz | hyz
          · have h : x.toNat < z.toNat := by omega
            simp [h]
          · have h : x.toNat < z.toNat := by omega
            simp [h]
          · have h1 : ¬ y.toNat < z.toNat := by omega
            simp [h1, hyz] at hbc
        · rcases Nat.lt_trichotomy y.toNat z.toNat with hyz | hyz | hyz
          · have h : x.toNat < z.toNat := by omega
            simp [h]
          · have h1 : ¬ x.toNat < y.toNat := by omega
            have h2 : ¬ y.toNat < x.toNat := by omega
            have h3 : ¬ y.toNat < z.toNat := by omega
            have h4 : ¬ z.toNat < y.toNat := by omega
            have h5 : ¬ x.toNat < z.toNat := by omega
            have h6 : ¬ z.toNat < x.toNat := by omega
            simp only [h1, h2, if_false] at hab
            simp only [h3, h4, if_false] at hbc
            simp only [h5, h6, if_false]
            exact ih ys zs hab hbc
          · have h3 : ¬ y.toNat < z.toNat := by omega
            simp [h3, hyz] at hbc
        · have h1 : ¬ x.toNat < y.toNat := by omega
          simp [h1, hxy] at hab

theorem signalLe_trans (a b c : SignalOut) (hab : signalLe a b = true)
    (hbc : signalLe b c = true) : signalLe a c = true :=
  charListLe_trans _ _ _ hab hbc

theorem signalLe_total (a b : SignalOut) : (signalLe a b || signalLe b a) = true :=
  charListLe_total _ _

/-- A malformed time-value record in the sense of the specification: not a
list/tuple, wrong arity, or a time `float()` rejects. -/
def recordMalformed : PyVal → Bool
  | .list [t, _] => (pyFloat t).isNone
  | .tuple [t, _] => (pyFloat t).isNone
  | _ => true

theorem processRecord_isSome_eq (scale : Rat) (r : PyVal) :
    (processRecord scale r).isSome = !recordMalformed r := by
  rcases r with _ | b | n | q | s | xs | xs | es <;> try rfl
  · rcases xs with _ | ⟨t, xs⟩
    · rfl
    rcases xs with _ | ⟨v, xs⟩
    · rfl
    rcases xs with _ | ⟨w, xs⟩
    · simp only [processRecord, recordMalformed]
      cases h : pyFloat t <;> simp [h]
    · rfl
  · rcases xs with _ | ⟨t, xs⟩
    · rfl
    rcases xs with _ | ⟨v, xs⟩
    · rfl
    rcases xs with _ | ⟨w, xs⟩
    · simp only [processRecord, recordMalformed]
      cases h : pyFloat t <;> simp [h]
    · rfl

theorem filterMap_eq_filterMap_filter {α β : Type} (f : α → Option β) (l : List α) :
    l.filterMap f = (l.filter (fun x => (f x).isSome)).filterMap f := by
  induction l with
  | nil => rfl
  | cons a t ih =>
    cases h : f a with
    | none => simp [List.filterMap_cons, List.filter_cons, h, ih]
    | some b => simp [List.filterMap_cons, List.filter_cons, h, ← ih]

theorem filterMap_length_of_isSome {α β : Type} (f : α → Option β) (l : List α)
    (h : ∀ x ∈ l, (f x).isSome = true) : (l.filterMap f).length = l.length := by
  induction l with
  | nil => rfl
  | cons a t ih =>
    have ha := h a (by simp)
    rcases Option.isSome_iff_exists.mp ha with ⟨b, hb⟩
    simp [List.filterMap_cons, hb, ih (fun x hx => h x (by simp [hx]))]

/-- The entry the signal loop appends for one (string, truthy) signal. -/
def entryFor (scale : Rat) (s : String) (sig : SigObj) : SignalOut :=
  match sig.tv with
  | Option.none => ⟨s, []⟩
  | some [] => ⟨s, []⟩
  | some tv => ⟨s, extractData scale tv⟩

theorem mem_processSignals_tail {vcd : VCDObj} {scale : Rat} {x : SignalOut}
    (n : PyVal) (rest : List PyVal) (h : x ∈ processSignals vcd scale rest) :
    x ∈ processSignals vcd scale (n :: rest) := by
  rcases n with _ | b | ni | q | s | xs | xs | es <;> simp only [processSignals] <;>
    try exact h
  by_cases he : s.data.isEmpty
  · simp [he, h]
  · simp only [he, if_false]
    rcases hl : vcd.sigLookup s with e | sig
    · exact h
    by_cases hf : sig.falsy
    · simp [hf, h]
    · simp only [hf, if_false]
      rcases htv : sig.tv with _ | tvl
      · exact List.mem_cons_of_mem _ h
      rcases tvl with _ | ⟨r, tvl⟩ <;> exact List.mem_cons_of_mem _ h

theorem entryFor_mem_processSignals (vcd : VCDObj) (scale : Rat) (s : String) (sig : SigObj)
    (names : List PyVal) (hmem : PyVal.str s ∈ names) (hne : s.data.isEmpty = false)
    (hlook : vcd.sigLookup s = .ok sig) (hfal : sig.falsy = false) :
    entryFor scale s sig ∈ processSignals vcd scale names := by
  induction names with
  | nil => simp at hmem
  | cons n rest ih =>
    rcases List.mem_cons.mp hmem with heq | htail
    · subst heq
      simp only [processSignals, hne, if_false, hlook, hfal, Bool.false_eq_true]
      rcases htv : sig.tv with _ | tvl
      · simp [entryFor, htv]
      rcases tvl with _ | ⟨r, tvl⟩
      · simp [entryFor, htv]
      · simp [entryFor, htv]
    · exact mem_processSignals_tail n rest (ih htail)

theorem processSignals_data_shape {vcd : VCDObj} {scale : Rat} :
    ∀ (names : List PyVal) (e : SignalOut), e ∈ processSignals vcd scale names →
      e.data = [] ∨ ∃ sig tvl, vcd.sigLookup e.name = .ok sig ∧ sig.tv = some tvl ∧
        e.data = extractData scale tvl := by
  intro names
  induction names with
  | nil => intro e h; simp [processSignals] at h
  | cons n rest ih =>
    intro e h
    rcases n with _ | b | ni | q | s | xs | xs | es <;> simp only [processSignals] at h <;>
      try exact ih e h
    by_cases he : s.data.isEmpty
    · simp only [he, if_true] at h
      exact ih e h
    · simp only [he, if_false, Bool.false_eq_true] at h
      rcases hl : vcd.sigLookup s with ex | sig <;> rw [hl] at h
      · exact ih e h
      by_cases hf : sig.falsy
      · simp only [hf, if_true] at h
        exact ih e h
      · simp only [hf, if_false, Bool.false_eq_true] at h
        rcases htv : sig.tv with _ | tvl <;> rw [htv] at h
        · rcases List.mem_cons.mp h with heq | htail
          · subst heq; left; rfl
          · exact ih e htail
        rcases tvl with _ | ⟨r, tvl⟩
        · rcases List.mem_cons.mp h with heq | htail
          · subst heq; left; rfl
          · exact ih e htail
        · rcases List.mem_cons.mp h with heq | htail
          · subst heq
            right
            exact ⟨sig, r :: tvl, hl, htv, rfl⟩
          · exact ih e htail

theorem get_signal_data_run (vcd : VCDObj) (names : List PyVal) (tsRaw : PyVal)
    (hs : vcd.getSignals = .ok names) (hne : names.isEmpty = false)
    (ht : vcd.getTimescale = .ok tsRaw) :
    get_signal_data (some vcd) =
      ⟨(processSignals vcd (tsScale tsRaw) names).mergeSort signalLe, ⟨1, "ns"⟩⟩ := by
  unfold get_signal_data getSignalDataCore
  simp only [hs, ht, hne, Bool.false_eq_true, if_false]

theorem get_signal_data_sorted_aux (w : Option VCDObj) :
    (get_signal_data w).signals.Pairwise (fun a b => signalLe a b = true) := by
  have hsort : ∀ l : List SignalOut,
      (l.mergeSort signalLe).Pairwise (fun a b => signalLe a b = true) := by
    intro l
    apply List.sorted_mergeSort
    · intro a b c
      exact signalLe_trans a b c
    · intro a b
      exact signalLe_total a b
  unfold get_signal_data getSignalDataCore
  rcases w with _ | vcd
  · simp [defaultResult]
  rcases hs : vcd.getSignals with e | names
  · simp [hs, defaultResult]
  by_cases hne : names.isEmpty
  · simp [hs, hne, defaultResult]
  rcases ht : vcd.getTimescale with e | tsRaw
  · simp [hs, hne, ht, defaultResult]
  · simp only [hs, hne, ht, Bool.false_eq_true, if_false]
    exact hsort _

/-! ### Concrete fixtures used by counterexamples and witnesses -/

/-- An existing, non-empty `.vcd` path whose first line carries a header
marker. -/
def fileOk : FileInfo := ⟨"trace.vcd", true, 42, some "$date today $end"⟩

/-- An existing, non-empty `.vcd` path whose first line has no `$`-marker. -/
def fileNoHeader : FileInfo := ⟨"bad.vcd", true, 12, some "hello world"⟩

/-- Does the outcome carry the specification's `ConfigurationError`? -/
def isConfigurationErrorResult : Except CoreError SignalsResult → Bool
  | .error (.configurationError _) => true
  | _ => false

/-- Is the surfaced error exactly the missing-header `ValidationError`? -/
def surfacedIsMissingHeader (p : ParseOutput) : Bool :=
  match p.result with
  | .error (.validationError m) =>
    strEq m "The file doesn't appear to be a valid VCD file. Missing proper header."
  | _ => false

/-! ### Claim theorems -/

/-- C1 (counterexample): with the decoding capability unavailable,
`parse_vcd_file` raises Django's `ValidationError` ("VCD parsing libraries
not available"), not the `ConfigurationError` the claim names — the source
has no such error type. -/
theorem parse_vcd_unavailable_not_configuration_error :
    (parse_vcd_file false fileOk (.raises "p") (.raises "f")).result
        = .error (.validationError "VCD parsing libraries not available")
      ∧ isConfigurationErrorResult
          (parse_vcd_file false fileOk (.raises "p") (.raises "f")).result = false :=
  ⟨rfl, rfl⟩

/-- C1 (amended): every precondition failure — capability unavailable,
path missing, zero size, wrong extension — raises a `ValidationError`
(the capability failure included, rather than a distinct
`ConfigurationError`), and is raised before either decoder strategy is
invoked. -/
theorem parse_vcd_precondition_failures :
    ∀ (avail : Bool) (f : FileInfo) (primary : PrimaryOutcome) (fallback : FallbackOutcome),
      (avail = false →
        parse_vcd_file avail f primary fallback =
          ⟨.error (.validationError "VCD parsing libraries not available"), false, false⟩)
      ∧ (avail = true → f.pathExists = false →
        parse_vcd_file avail f primary fallback =
          ⟨.error (.validationError ("File not found: " ++ f.path)), false, false⟩)
      ∧ (avail = true → f.path.data.isEmpty = false → f.pathExists = true → f.size = 0 →
        parse_vcd_file avail f primary fallback =
          ⟨.error (.validationError "The uploaded file is empty"), false, false⟩)
      ∧ (avail = true → f.path.data.isEmpty = false → f.pathExists = true → f.size ≠ 0 →
        endsWithCL ".vcd".data (lowerStr f.path).data = false →
        parse_vcd_file avail f primary fallback =
          ⟨.error (.validationError "Invalid file format. Only VCD files are allowed."),
           false, false⟩) := by
  intro avail f primary fallback
  refine ⟨?_, ?_, ?_, ?_⟩
  · intro h
    subst h
    rfl
  · intro h1 h2
    subst h1
    unfold parse_vcd_file
    simp [h2]
  · intro h1 h2 h3 h4
    subst h1
    unfold parse_vcd_file
    simp [h2, h3, h4]
  · intro h1 h2 h3 h4 h5
    subst h1
    unfold parse_vcd_file
    simp [h2, h3, h4, h5]

/-- Witness for C1 (amended) at a concrete zero-size file. -/
theorem parse_vcd_precondition_failures_witness :
    parse_vcd_file true ⟨"trace.vcd", true, 0, Option.none⟩ (.raises "p") (.raises "f") =
      ⟨.error (.validationError "The uploaded file is empty"), false, false⟩ :=
  (parse_vcd_precondition_failures true ⟨"trace.vcd", true, 0, Option.none⟩
    (.raises "p") (.raises "f")).2.2.1 rfl rfl rfl rfl

/-- C4 (code bug): on a file whose first line has no header marker, with
both decoders failing, the missing-header check fires — but the
`ValidationError` it raises at line 304 is caught by the blanket
`except Exception` of line 307, so the surfaced message is the generic
"Failed to parse file: ..." of line 311, never the specific one. -/
theorem missing_header_message_swallowed :
    missingHeaderCheck fileNoHeader =
        some "The file doesn't appear to be a valid VCD file. Missing proper header."
      ∧ (parse_vcd_file true fileNoHeader (.raises "primary failed")
          (.raises "fallback failed")).result
        = .error (.validationError ("Failed to parse file: " ++ "fallback failed"))
      ∧ surfacedIsMissingHeader
          (parse_vcd_file true fileNoHeader (.raises "primary failed")
            (.raises "fallback failed")) = false :=
  ⟨rfl, rfl, rfl⟩

/-- C5: when the primary decoder raises and the fallback parses
successfully, `parse_vcd_file` returns the degraded successful result
`{signals: [], timescale: {value: 1, unit: "ns"}}` instead of raising. -/
theorem fallback_success_degraded :
    ∀ (f : FileInfo) (msg : String),
      f.path.data.isEmpty = false → f.pathExists = true → f.size ≠ 0 →
      endsWithCL ".vcd".data (lowerStr f.path).data = true →
      (parse_vcd_file true f (.raises msg) .ok).result =
          .ok { signals := [], timescale := { value := 1, unit := "ns" } }
        ∧ (parse_vcd_file true f (.raises msg) .ok).fallbackInvoked = true := by
  intro f msg h1 h2 h3 h4
  have h : parse_vcd_file true f (.raises msg) .ok = ⟨.ok defaultResult, true, true⟩ := by
    unfold parse_vcd_file
    simp [h1, h2, h3, h4]
  rw [h]
  exact ⟨rfl, rfl⟩

/-- Witness for C5 at a concrete file. -/
theorem fallback_success_degraded_witness :
    (parse_vcd_file true fileOk (.raises "boom") .ok).result =
        .ok { signals := [], timescale := { value := 1, unit := "ns" } }
      ∧ (parse_vcd_file true fileOk (.raises "boom") .ok).fallbackInvoked = true :=
  fallback_success_degraded fileOk "boom" rfl rfl (by decide) rfl

/-- C9 (counterexample): an unavailable outcome is not cached — after a
first call that found parsing disabled (returning `False`), a second call
in an environment where loading succeeds re-runs the check, returns
`True`, and flips the flag. -/
theorem ensure_parsers_unavailable_not_cached :
    (ensure_parsers_loaded initialLoaderState ⟨false, true⟩).2.1 = false
      ∧ (ensure_parsers_loaded (ensure_parsers_loaded initialLoaderState ⟨false, true⟩).1
          ⟨true, true⟩).2.1 = true
      ∧ (ensure_parsers_loaded initialLoaderState ⟨false, true⟩).1.parsersAvailable = false
      ∧ (ensure_parsers_loaded (ensure_parsers_loaded initialLoaderState ⟨false, true⟩).1
          ⟨true, true⟩).1.parsersAvailable = true :=
  ⟨rfl, rfl, rfl, rfl⟩

/-- C9 (amended): only the available outcome is cached: after any call
returning `True`, every later call returns the identical triple and leaves
the globals unchanged; after a call returning `False`, the next call
re-runs the availability check (its result is determined by the new
environment alone). -/
theorem ensure_parsers_available_cached :
    ∀ (st : LoaderState) (env env2 : LoadEnv),
      ((ensure_parsers_loaded st env).2.1 = true →
        ensure_parsers_loaded (ensure_parsers_loaded st env).1 env2 =
          ((ensure_parsers_loaded st env).1, (ensure_parsers_loaded st env).2))
      ∧ ((ensure_parsers_loaded st env).2.1 = false →
        (ensure_parsers_loaded (ensure_parsers_loaded st env).1 env2).2.1 =
          (env2.settingEnabled && env2.importsOk)) := by
  intro st env env2
  rcases st with ⟨a, b, c⟩
  rcases env with ⟨se, io⟩
  rcases env2 with ⟨se2, io2⟩
  cases a <;> cases se <;> cases io <;> cases se2 <;> cases io2 <;>
    refine ⟨fun h => ?_, fun h => ?_⟩ <;>
    first
      | rfl
      | simp [ensure_parsers_loaded] at h

/-- Witness for C9 (amended): after a successful load, a later call in a
hostile environment still returns the cached triple. -/
theorem ensure_parsers_available_cached_witness :
    ensure_parsers_loaded (ensure_parsers_loaded ⟨false, false, false⟩ ⟨true, true⟩).1
        ⟨false, false⟩ =
      ((ensure_parsers_loaded ⟨false, false, false⟩ ⟨true, true⟩).1,
       (ensure_parsers_loaded ⟨false, false, false⟩ ⟨true, true⟩).2) :=
  (ensure_parsers_available_cached ⟨false, false, false⟩ ⟨true, true⟩ ⟨false, false⟩).1 rfl

/-- C10: if the primary parser constructs its object, the extraction
returns a successful result and the fallback is never reached; any
exception the extraction itself raises is caught inside
`get_signal_data`, which returns the default result instead of
propagating. -/
theorem primary_success_no_fallback :
    ∀ (f : FileInfo) (vcd : VCDObj) (fallback : FallbackOutcome),
      f.path.data.isEmpty = false → f.pathExists = true → f.size ≠ 0 →
      endsWithCL ".vcd".data (lowerStr f.path).data = true →
      ((parse_vcd_file true f (.ok vcd) fallback).result = .ok (get_signal_data (some vcd))
        ∧ (parse_vcd_file true f (.ok vcd) fallback).fallbackInvoked = false)
      ∧ (∀ (w : Option VCDObj) (e : PyExc), getSignalDataCore w = .error e →
          get_signal_data w = { signals := [], timescale := { value := 1, unit := "ns" } }) := by
  intro f vcd fb h1 h2 h3 h4
  constructor
  · have h : parse_vcd_file true f (.ok vcd) fb =
        ⟨.ok (get_signal_data (some vcd)), true, false⟩ := by
      unfold parse_vcd_file
      simp [h1, h2, h3, h4]
    rw [h]
    exact ⟨rfl, rfl⟩
  · intro w e he
    unfold get_signal_data
    simp [he, defaultResult]

/-- A duck-typed object whose every accessor raises. -/
def vcdAllRaise : VCDObj :=
  ⟨.error (.exc "boom"), .error (.exc "boom"), fun _ => .error (.keyError "k")⟩

/-- Witness for C10: a primary object whose signal extraction raises still
yields a successful (default) result, with the fallback never invoked. -/
theorem primary_success_no_fallback_witness :
    (parse_vcd_file true fileOk (.ok vcdAllRaise) (.raises "f")).result
        = .ok (get_signal_data (some vcdAllRaise))
      ∧ (parse_vcd_file true fileOk (.ok vcdAllRaise) (.raises "f")).fallbackInvoked = false
      ∧ get_signal_data (some vcdAllRaise) =
          { signals := [], timescale := { value := 1, unit := "ns" } } := by
  have h := primary_success_no_fallback fileOk vcdAllRaise (.raises "f") rfl rfl (by decide) rfl
  exact ⟨h.1.1, h.1.2, h.2 (some vcdAllRaise) (.exc "boom") rfl⟩

/-- The scientific-notation-seconds mapping exactly as the specification
states it (spec §4.1): fixed lookup of known powers of ten, otherwise
seconds × 1e9 with unit forced to ns. -/
def specSciResolve (v : Rat) : Rat × String :=
  if v = 1 / 1000000000000 then (1, "ps")
  else if v = 1 / 100000000000 then (10, "ps")
  else if v = 1 / 10000000000 then (100, "ps")
  else if v = 1 / 1000000000 then (1, "ns")
  else (v * 1000000000, "ns")

/-- C2: whenever the timescale metadata carries a `"timescale"` key whose
value `float()`s to `v` seconds, the resolver produces exactly the
specification's mapping: 1e-12→(1,ps), 1e-11→(10,ps), 1e-10→(100,ps),
1e-9→(1,ns), anything else →(v×1e9, ns). -/
theorem resolveTimescale_scientific_spec :
    ∀ (entries : List (String × PyVal)) (x : PyVal) (v : Rat),
      dictGet entries "timescale" = some x → pyFloat x = some v →
      resolveTimescale entries = specSciResolve v := by
  intro entries x v h1 h2
  unfold resolveTimescale specSciResolve
  simp only [h1, h2]

/-- Witness for C2 at the concrete declaration `1e-12` seconds. -/
theorem resolveTimescale_scientific_spec_witness :
    resolveTimescale [("timescale", PyVal.str "1e-12")] = (1, "ps") := by
  have hp : pyFloat (PyVal.str "1e-12") = some (1 / 1000000000000) := by
    have h : parseFloatParts (stripCL "1e-12".data) = some (1, 1000000000000) := rfl
    simp [pyFloat, parseFloatStr, h]
  have happ := resolveTimescale_scientific_spec [("timescale", PyVal.str "1e-12")]
    (PyVal.str "1e-12") (1 / 1000000000000) rfl hp
  rw [happ]
  simp [specSciResolve]

/-- The claim's six-entry unit table (s, ms, us, ns, ps, fs), with every
other unit mapped to 1, exactly as the claim states it. -/
def specUnitMulC3 (u : String) : Rat :=
  if strEq "s" u then 1000000000
  else if strEq "ms" u then 1000000
  else if strEq "us" u then 1000
  else if strEq "ns" u then 1
  else if strEq "ps" u then 1 / 1000
  else if strEq "fs" u then 1 / 1000000
  else 1

/-- C3 (counterexample): the unit `"µs"` is outside the claim's six-entry
table, so the claim predicts multiplier 1 — but the source's `unit_map`
carries the `"µs"` alias and yields 1000. -/
theorem scale_factor_micro_alias_cex :
    scale_factor 1 "µs" = 1000
      ∧ specUnitMulC3 "µs" = 1
      ∧ ((1000 : Rat) ≠ 1) := by
  refine ⟨?_, rfl, by norm_num⟩
  have h : unit_map.find? (fun e => strEq e.1 "µs") = some ("µs", 1000) := rfl
  simp [scale_factor, unitMapGet, h]

/-- The source's multiplier table as the amended claim states it: the six
units plus the `"µs"` alias of `us`; everything else maps to 1. -/
def specUnitMulAmended (u : String) : Rat :=
  if strEq "s" u then 1000000000
  else if strEq "ms" u then 1000000
  else if strEq "us" u then 1000
  else if strEq "µs" u then 1000
  else if strEq "ns" u then 1
  else if strEq "ps" u then 1 / 1000
  else if strEq "fs" u then 1 / 1000000
  else 1

theorem processRecord_list_pair (scale : Rat) (t v : PyVal) :
    processRecord scale (.list [t, v]) =
      match pyFloat t with
      | some tq => some ⟨tq * scale, if isScalar v then v else .str (pyStr v)⟩
      | Option.none => Option.none := rfl

theorem processRecord_tuple_pair (scale : Rat) (t v : PyVal) :
    processRecord scale (.tuple [t, v]) =
      match pyFloat t with
      | some tq => some ⟨tq * scale, if isScalar v then v else .str (pyStr v)⟩
      | Option.none => Option.none := rfl

theorem unitMapGet_eq_specAmended (u : String) : unitMapGet u = specUnitMulAmended u := by
  unfold unitMapGet unit_map specUnitMulAmended
  by_cases h1 : strEq "s" u = true <;>
  by_cases h2 : strEq "ms" u = true <;>
  by_cases h3 : strEq "us" u = true <;>
  by_cases h4 : strEq "µs" u = true <;>
  by_cases h5 : strEq "ns" u = true <;>
  by_cases h6 : strEq "ps" u = true <;>
  by_cases h7 : strEq "fs" u = true <;>
  simp [List.find?, h1, h2, h3, h4, h5, h6, h7]

/-- C3 (amended): the scale factor is value × m(unit) with m the fixed
table s=1e9, ms=1e6, us=1e3, µs=1e3, ns=1, ps=1e-3, fs=1e-6 and default 1
for any other unit (no error); and every emitted sample time is a raw time
multiplied by that scale factor. -/
theorem scale_factor_table :
    (∀ (v : Rat) (u : String), scale_factor v u = v * specUnitMulAmended u)
      ∧ (∀ (scale : Rat) (r : PyVal) (smp : Sample),
          processRecord scale r = some smp → ∃ t : Rat, smp.time = t * scale) := by
  constructor
  · intro v u
    unfold scale_factor
    rw [unitMapGet_eq_specAmended, mul_comm]
  · intro scale r smp h
    rcases r with _ | b | n | q | s | xs | xs | es
    case list =>
      rcases xs with _ | ⟨t, xs⟩
      · exact Option.noConfusion h
      rcases xs with _ | ⟨v, xs⟩
      · exact Option.noConfusion h
      rcases xs with _ | ⟨w, xs⟩
      · rw [processRecord_list_pair] at h
        cases hf : pyFloat t <;> rw [hf] at h
        · exact Option.noConfusion h
        · injection h with h2
          exact ⟨_, by rw [← h2]⟩
      · exact Option.noConfusion h
    case tuple =>
      rcases xs with _ | ⟨t, xs⟩
      · exact Option.noConfusion h
      rcases xs with _ | ⟨v, xs⟩
      · exact Option.noConfusion h
      rcases xs with _ | ⟨w, xs⟩
      · rw [processRecord_tuple_pair] at h
        cases hf : pyFloat t <;> rw [hf] at h
        · exact Option.noConfusion h
        · injection h with h2
          exact ⟨_, by rw [← h2]⟩
      · exact Option.noConfusion h
    all_goals exact Option.noConfusion h

/-- Witness for C3 (amended) at the unit `"ps"` and a concrete record. -/
theorem scale_factor_table_witness :
    scale_factor 5 "ps" = 5 * specUnitMulAmended "ps"
      ∧ ∃ t : Rat, (Sample.mk (((1 : Int) : Rat) * 3) (PyVal.str "x")).time = t * 3 :=
  ⟨scale_factor_table.1 5 "ps",
   scale_factor_table.2 3 (PyVal.list [PyVal.int 1, PyVal.str "x"])
     ⟨((1 : Int) : Rat) * 3, PyVal.str "x"⟩ rfl⟩

/-- C6: a signal whose `tv` list holds exactly one malformed record amid N
well-formed ones still appears in the result, carrying exactly the samples
of the well-formed records — N of them; the malformed record aborts
neither the signal nor the file. -/
theorem malformed_record_skipped :
    ∀ (vcd : VCDObj) (names : List PyVal) (tsRaw : PyVal) (s : String) (sig : SigObj)
      (tvl : List PyVal) (N : Nat),
      vcd.getSignals = .ok names → PyVal.str s ∈ names → s.data.isEmpty = false →
      vcd.getTimescale = .ok tsRaw →
      vcd.sigLookup s = .ok sig → sig.falsy = false → sig.tv = some tvl →
      tvl.countP recordMalformed = 1 →
      tvl.countP (fun r => !recordMalformed r) = N →
      SignalOut.mk s ((tvl.filter (fun r => !recordMalformed r)).filterMap
          (processRecord (tsScale tsRaw))) ∈ (get_signal_data (some vcd)).signals
        ∧ ((tvl.filter (fun r => !recordMalformed r)).filterMap
            (processRecord (tsScale tsRaw))).length = N := by
  intro vcd names tsRaw s sig tvl N hs hmem hne ht hlook hfal htv hbad hgood
  have hnames : names.isEmpty = false := by
    cases names
    · simp at hmem
    · rfl
  have hall : ∀ r ∈ tvl.filter (fun r => !recordMalformed r),
      (processRecord (tsScale tsRaw) r).isSome = true := by
    intro r hr
    rw [processRecord_isSome_eq]
    exact (List.mem_filter.mp hr).2
  have hdata : extractData (tsScale tsRaw) tvl =
      (tvl.filter (fun r => !recordMalformed r)).filterMap (processRecord (tsScale tsRaw)) := by
    unfold extractData
    rw [filterMap_eq_filterMap_filter]
    congr 1
    apply List.filter_congr
    intro x hx
    rw [processRecord_isSome_eq]
  constructor
  · have hentry : entryFor (tsScale tsRaw) s sig =
        SignalOut.mk s ((tvl.filter (fun r => !recordMalformed r)).filterMap
          (processRecord (tsScale tsRaw))) := by
      unfold entryFor
      rw [htv]
      rcases tvl with _ | ⟨r, rest⟩
      · simp at hbad
      · rw [← hdata]
    rw [get_signal_data_run vcd names tsRaw hs hnames ht]
    exact List.mem_mergeSort.mpr (hentry ▸ entryFor_mem_processSignals vcd (tsScale tsRaw) s sig names hmem hne hlook hfal)
  · rw [filterMap_length_of_isSome _ _ hall, ← hgood]
    exact Eq.symm (List.countP_eq_length_filter _ _)

/-- The C6 witness fixture: signal `clk` with records
`[(0, "0"), 5, (10, "1")]` — the bare `5` is malformed. -/
def sig6 : SigObj :=
  ⟨false, some [.list [.int 0, .str "0"], .int 5, .tuple [.int 10, .str "1"]]⟩

def vcd6 : VCDObj :=
  ⟨.ok [.str "clk"], .ok (.dict defaultTsEntries),
   fun s => if strEq s "clk" then .ok sig6 else .error (.keyError "missing")⟩

/-- Witness for C6: with one malformed record amid two well-formed ones,
`clk` keeps exactly two samples. -/
theorem malformed_record_skipped_witness :
    SignalOut.mk "clk"
        (([PyVal.list [.int 0, .str "0"], PyVal.int 5, PyVal.tuple [.int 10, .str "1"]].filter
            (fun r => !recordMalformed r)).filterMap
          (processRecord (tsScale (.dict defaultTsEntries))))
      ∈ (get_signal_data (some vcd6)).signals
    ∧ (([PyVal.list [.int 0, .str "0"], PyVal.int 5, PyVal.tuple [.int 10, .str "1"]].filter
          (fun r => !recordMalformed r)).filterMap
        (processRecord (tsScale (.dict defaultTsEntries)))).length = 2 :=
  malformed_record_skipped vcd6 [.str "clk"] (.dict defaultTsEntries) "clk" sig6
    [.list [.int 0, .str "0"], .int 5, .tuple [.int 10, .str "1"]] 2
    rfl (by simp) rfl rfl rfl rfl rfl rfl rfl

/-- C7: a declared signal whose time-value data is absent or empty still
contributes an entry `{name, data: []}` to the result — it is not
dropped. -/
theorem empty_signal_kept :
    ∀ (vcd : VCDObj) (names : List PyVal) (tsRaw : PyVal) (s : String) (sig : SigObj),
      vcd.getSignals = .ok names → PyVal.str s ∈ names → s.data.isEmpty = false →
      vcd.getTimescale = .ok tsRaw → vcd.sigLookup s = .ok sig → sig.falsy = false →
      (sig.tv = Option.none ∨ sig.tv = some []) →
      SignalOut.mk s [] ∈ (get_signal_data (some vcd)).signals := by
  intro vcd names tsRaw s sig hs hmem hne ht hlook hfal htv
  have hnames : names.isEmpty = false := by
    cases names
    · simp at hmem
    · rfl
  have hentry : entryFor (tsScale tsRaw) s sig = SignalOut.mk s [] := by
    unfold entryFor
    rcases htv with h | h <;> rw [h]
  rw [get_signal_data_run vcd names tsRaw hs hnames ht]
  exact List.mem_mergeSort.mpr (hentry ▸ entryFor_mem_processSignals vcd (tsScale tsRaw) s sig names hmem hne hlook hfal)

/-- The C7 witness fixture: signal `dat` with no `tv` attribute. -/
def sig7 : SigObj := ⟨false, Option.none⟩

def vcd7 : VCDObj :=
  ⟨.ok [.str "dat"], .ok (.dict defaultTsEntries),
   fun s => if strEq s "dat" then .ok sig7 else .error (.keyError "missing")⟩

/-- Witness for C7: `dat` appears with empty data. -/
theorem empty_signal_kept_witness :
    SignalOut.mk "dat" [] ∈ (get_signal_data (some vcd7)).signals :=
  empty_signal_kept vcd7 [.str "dat"] (.dict defaultTsEntries) "dat" sig7
    rfl (by simp) rfl rfl rfl rfl (Or.inl rfl)

/-- C8: for every input (hence every declaration/processing order), the
result's signals are sorted by name under Python's lexicographic string
order; and every entry's samples arise from an order-preserving traversal
(a sublist) of its source `tv` stream. -/
theorem signals_sorted_and_stream_order :
    (∀ w : Option VCDObj,
      (get_signal_data w).signals.Pairwise (fun a b => signalLe a b = true))
    ∧ (∀ (vcd : VCDObj) (names : List PyVal) (tsRaw : PyVal) (e : SignalOut),
        vcd.getSignals = .ok names → names.isEmpty = false → vcd.getTimescale = .ok tsRaw →
        e ∈ (get_signal_data (some vcd)).signals →
        e.data = [] ∨ ∃ (sig : SigObj) (tvl wf : List PyVal),
          vcd.sigLookup e.name = .ok sig ∧ sig.tv = some tvl ∧ wf.Sublist tvl ∧
          (∀ r ∈ wf, (processRecord (tsScale tsRaw) r).isSome = true) ∧
          e.data = wf.filterMap (processRecord (tsScale tsRaw))) := by
  constructor
  · exact get_signal_data_sorted_aux
  · intro vcd names tsRaw e hs hne ht hmem
    rw [get_signal_data_run vcd names tsRaw hs hne ht] at hmem
    have hmem2 : e ∈ processSignals vcd (tsScale tsRaw) names :=
      List.mem_mergeSort.mp hmem
    rcases processSignals_data_shape names e hmem2 with h | ⟨sig, tvl, hlook, htv, hdata⟩
    · exact Or.inl h
    · right
      refine ⟨sig, tvl, tvl.filter (fun r => (processRecord (tsScale tsRaw) r).isSome),
        hlook, htv, List.filter_sublist _, ?_, ?_⟩
      · intro r hr
        exact (List.mem_filter.mp hr).2
      · rw [hdata]
        exact filterMap_eq_filterMap_filter _ _

/-- The C8 witness fixture: signals declared in the unsorted order
`["b", "a"]`. -/
def sig8 : SigObj := ⟨false, some [.list [.int 0, .str "1"]]⟩

def vcd8 : VCDObj :=
  ⟨.ok [.str "b", .str "a"], .ok (.dict defaultTsEntries),
   fun s =>
     if strEq s "b" then .ok sig8
     else if strEq s "a" then .ok ⟨false, Option.none⟩
     else .error (.keyError "missing")⟩

/-- Witness for C8: the concrete result is sorted, and the entry `a` (with
no samples) satisfies the stream-order disjunction. -/
theorem signals_sorted_and_stream_order_witness :
    (get_signal_data (some vcd8)).signals.Pairwise (fun a b => signalLe a b = true)
    ∧ ((SignalOut.mk "a" []).data = [] ∨ ∃ (sig : SigObj) (tvl wf : List PyVal),
        vcd8.sigLookup (SignalOut.mk "a" []).name = .ok sig ∧ sig.tv = some tvl ∧
        wf.Sublist tvl ∧
        (∀ r ∈ wf, (processRecord (tsScale (.dict defaultTsEntries)) r).isSome = true) ∧
        (SignalOut.mk "a" []).data = wf.filterMap
          (processRecord (tsScale (.dict defaultTsEntries)))) := by
  have hmem : SignalOut.mk "a" [] ∈ (get_signal_data (some vcd8)).signals := by
    rw [get_signal_data_run vcd8 [.str "b", .str "a"] (.dict defaultTsEntries) rfl rfl rfl]
    exact List.mem_mergeSort.mpr
      (entryFor_mem_processSignals vcd8 (tsScale (.dict defaultTsEntries)) "a"
        ⟨false, Option.none⟩ [.str "b", .str "a"] (by simp) rfl rfl rfl)
  exact ⟨signals_sorted_and_stream_order.1 (some vcd8),
    signals_sorted_and_stream_order.2 vcd8 [.str "b", .str "a"] (.dict defaultTsEntries)
      (SignalOut.mk "a" []) rfl rfl rfl hmem⟩

end Wave
